import Mathlib

/-!
Verification of the aLMARi backend image pipeline (src/backend/app/main.py).

The pipeline's pure algorithmic content — dominant-color extraction by
k-means (`detect_colors_kmeans`), hex formatting (`rgb_to_hex`), white
compositing of the background-removed image, AI-response parsing inside
`process_and_add_item`, and the ingestion sequencing — is shallowly
embedded below.  External capabilities (PIL decode/resize/JPEG encode,
rembg segmentation, sklearn's KMeans optimiser, the Gemini call, the
SQLite store) are modelled as explicit inputs or as deterministic Lean
functions with the same interface contract; Python floats are modelled as
exact rationals, and Python's `round` (banker's rounding) is modelled
exactly on rationals.
-/

namespace Almari

/-- An RGB pixel, one natural number per channel (0‥255 for real images). -/
abbrev RGBt := ℕ × ℕ × ℕ

/-- One palette entry as built by `detect_colors_kmeans`:
the cluster-centre colour, its hex rendering, and the rounded
fraction of pixels assigned to the cluster. -/
structure ColorSample where
  rgb : RGBt
  hex : String
  frequency : ℚ
deriving DecidableEq

/-- Lowercase hex digit, as produced by Python's `'\x7b:02x\x7d'.format`. -/
def hexDigit (n : ℕ) : Char :=
  if n < 10 then Char.ofNat (48 + n) else Char.ofNat (87 + n)

/-- Hex digit list of `n` (most significant first), fuel-driven; empty on 0. -/
def natToHexAux : ℕ → ℕ → List Char
  | 0, _ => []
  | _ + 1, 0 => []
  | fuel + 1, n => natToHexAux fuel (n / 16) ++ [hexDigit (n % 16)]

/-- Digit list made non-empty: `0` renders as `'0'`. -/
def nonEmptyDigits (ds : List Char) : List Char :=
  if ds = [] then ['0'] else ds

/-- Left-pad a digit list with `'0'` to width 2. -/
def pad2 (ds : List Char) : List Char :=
  if (nonEmptyDigits ds).length < 2 then '0' :: nonEmptyDigits ds
  else nonEmptyDigits ds

/-- Python `'\x7b:02x\x7d'.format (n)`: lowercase hex, left-padded to width 2. -/
def format02x (n : ℕ) : String :=
  ⟨pad2 (natToHexAux n n)⟩

/-- `rgb_to_hex` from main.py line 184: `'#\x7b:02x\x7d\x7b:02x\x7d\x7b:02x\x7d'.format(rgb[0], rgb[1], rgb[2])`. -/
def rgb_to_hex (c : RGBt) : String :=
  "#" ++ format02x c.1 ++ format02x c.2.1 ++ format02x c.2.2

/-- Python's built-in `round` on an exact rational: round half to even. -/
def pyRound (q : ℚ) : ℤ :=
  let f := ⌊q⌋
  let r := q - (f : ℚ)
  if r < 1 / 2 then f
  else if 1 / 2 < r then f + 1
  else if f % 2 = 0 then f else f + 1

/-- Python `round(q, 3)` on an exact rational. -/
def round3 (q : ℚ) : ℚ := (pyRound (q * 1000) : ℚ) / 1000

/-- Squared Euclidean distance in RGB space. -/
def dist2 (p q : RGBt) : ℤ :=
  ((p.1 : ℤ) - q.1) ^ 2 + ((p.2.1 : ℤ) - q.2.1) ^ 2 + ((p.2.2 : ℤ) - q.2.2) ^ 2

/-- Scan for the index of the nearest centre; `bi`/`bd` track the best
index and distance so far, `i` the index of the head of the remaining list. -/
def nearestIdxAux (p : RGBt) : List RGBt → ℕ → ℕ → ℤ → ℕ
  | [], _, bi, _ => bi
  | c :: cs, i, bi, bd =>
    let d := dist2 p c
    if d < bd then nearestIdxAux p cs (i + 1) i d
    else nearestIdxAux p cs (i + 1) bi bd

/-- Index of the centre nearest to `p` (first index on ties). -/
def nearestIdx (p : RGBt) (cs : List RGBt) : ℕ :=
  match cs with
  | [] => 0
  | c :: rest => nearestIdxAux p rest 1 0 (dist2 p c)

/-- Pixels assigned to cluster `i` under the given centres. -/
def clusterOf (pixels centers : List RGBt) (i : ℕ) : List RGBt :=
  pixels.filter (fun p => nearestIdx p centers = i)

/-- Componentwise integer mean of a pixel list (old centre kept when empty),
modelling the float centroid truncated by `astype(int)`. -/
def meanRGB (l : List RGBt) (old : RGBt) : RGBt :=
  if l.isEmpty then old
  else ((l.map (fun p => p.1)).sum / l.length,
        (l.map (fun p => p.2.1)).sum / l.length,
        (l.map (fun p => p.2.2)).sum / l.length)

/-- One Lloyd iteration: reassign pixels to nearest centres and recompute
each centre as the integer mean of its cluster. -/
def lloydStep (pixels centers : List RGBt) : List RGBt :=
  (List.range centers.length).map
    (fun i => meanRGB (clusterOf pixels centers i) (centers.getD i (0, 0, 0)))

/-- Fuel-bounded Lloyd iteration to a fixed point (sklearn `max_iter=300`). -/
def lloyd : ℕ → List RGBt → List RGBt → List RGBt
  | 0, _, cs => cs
  | fuel + 1, ps, cs =>
    let cs' := lloydStep ps cs
    if cs' = cs then cs else lloyd fuel ps cs'

/-- Modelled from the spec: sklearn's `KMeans(n_clusters=nc, random_state=seed,
n_init=10).fit` is an external optimiser; the spec requires only a
deterministic, seed-reproducible partition of the pixels into `nc` clusters
by RGB proximity.  We model it as Lloyd iteration from a seed-derived
initialisation, returning the integer centres and the per-pixel labels. -/
def kmeansRun (seed : ℕ) (pixels : List RGBt) (nc : ℕ) : List RGBt × List ℕ :=
  let init := (pixels.rotate (seed % pixels.length)).take nc
  let centers := lloyd 300 pixels init
  (centers, pixels.map (fun p => nearestIdx p centers))

/-- The fallback palette returned by the `except` branch of
`detect_colors_kmeans` (main.py lines 241–247). -/
def whiteFallback : List ColorSample :=
  [⟨(255, 255, 255), "#FFFFFF", 1⟩]

/-- Keep predicate of the background filter: not pure white, not pure black. -/
def keepPixel (p : RGBt) : Bool :=
  decide (p ≠ (255, 255, 255) ∧ p ≠ (0, 0, 0))

/-- The pixel set actually clustered (main.py lines 206–211): drop exact
white and exact black; if that empties the list, fall back to the
unfiltered pixels. -/
def clusterInput (allPixels : List RGBt) : List RGBt :=
  let filtered := allPixels.filter keepPixel
  if filtered.isEmpty then allPixels else filtered

/-- Sort key order used on palette entries: non-increasing frequency
(`result.sort(key=lambda x: x['frequency'], reverse=True)`). -/
def freqGE (a b : ColorSample) : Prop := b.frequency ≤ a.frequency

instance : DecidableRel freqGE :=
  fun a b => inferInstanceAs (Decidable (b.frequency ≤ a.frequency))

instance : IsTotal ColorSample freqGE :=
  ⟨fun a b => le_total b.frequency a.frequency⟩

instance : IsTrans ColorSample freqGE :=
  ⟨fun _ _ _ h1 h2 => le_trans h2 h1⟩

/-- Stable descending sort by frequency, as Python's stable `list.sort`
with `reverse=True`. -/
def sortByFreqDesc (l : List ColorSample) : List ColorSample :=
  List.insertionSort freqGE l

/-- Build the palette from centres and labels (main.py lines 217–237):
one entry per cluster centre with its rounded pixel fraction, sorted
by descending frequency. -/
def buildPalette (centers : List RGBt) (labels : List ℕ) : List ColorSample :=
  let total := labels.length
  sortByFreqDesc ((List.range centers.length).map
    (fun i =>
      let c := centers.getD i (0, 0, 0)
      ⟨c, rgb_to_hex c, round3 ((labels.count i : ℚ) / (total : ℚ))⟩))

/-- Core of `detect_colors_kmeans` after decode and 150×150 resize, with the
`random_state` argument made explicit: `none` would use the ambient RNG
state, the code always passes `some 42`.  `nc = 0` (requested 0 colours, or
no pixels at all) makes sklearn raise, which the `except` branch turns into
the white fallback. -/
def detectCoreR (randomState : Option ℕ) (ambientSeed : ℕ)
    (allPixels : List RGBt) (num_colors : ℕ) : List ColorSample :=
  let pixels := clusterInput allPixels
  let nc := min num_colors pixels.length
  if nc = 0 then whiteFallback
  else
    let seed := randomState.getD ambientSeed
    let run := kmeansRun seed pixels nc
    buildPalette run.1 run.2

/-- `detect_colors_kmeans` (main.py lines 187–247).  The PIL decode and
resize of the raw bytes are external; their result is passed as
`decoded` — `none` when `Image.open` raises, in which case the `except`
branch returns the white fallback.  The code fixes `random_state=42`. -/
def detect_colors_kmeans (decoded : Option (List RGBt)) (num_colors : ℕ) :
    List ColorSample :=
  match decoded with
  | none => whiteFallback
  | some px => detectCoreR (some 42) 0 px num_colors

/-- PIL image mode as distinguished by the pipeline: the alpha-carrying
4-channel mode `RGBA` versus the alpha-free modes (rembg emits RGBA or RGB;
`L`/`P` stand for the remaining alpha-free PIL modes). -/
inductive PMode
  | RGBA
  | RGB
  | L
  | P
deriving DecidableEq

/-- A decoded PIL image: its mode and its pixels.  Each pixel stores the
four channel values `(r, g, b, a)`; the alpha component is meaningful only
in `RGBA` mode (for the other modes the RGB content of the pixel is stored
and the fourth component is ignored). -/
structure PImg where
  mode : PMode
  px : List (ℕ × ℕ × ℕ × ℕ)
deriving DecidableEq

/-- PIL's approximate multiply-by-`b/255` (the `MULDIV255` macro used by
`Image.paste` with a mask). -/
def muldiv255 (a b : ℕ) : ℕ :=
  let t := a * b + 128
  (t / 256 + t) / 256

/-- PIL mask blend of one channel: background `bg`, foreground `fg`,
mask value `m` (0 keeps the background, 255 takes the foreground). -/
def blendChan (bg fg m : ℕ) : ℕ :=
  muldiv255 bg (255 - m) + muldiv255 fg m

/-- One pixel of `white_bg.paste(img_rgba, mask=alpha)`: each colour channel
blended over white 255 with the pixel's alpha as mask. -/
def pasteWhite (p : ℕ × ℕ × ℕ × ℕ) : ℕ × ℕ × ℕ × ℕ :=
  (blendChan 255 p.1 p.2.2.2,
   blendChan 255 p.2.1 p.2.2.2,
   blendChan 255 p.2.2.1 p.2.2.2, 255)

/-- PIL `convert('RGB')`: drop to the 3-channel mode.  For non-RGB source
modes the conversion semantics (palette lookup, gray replication) are
PIL's; we store each pixel's RGB content directly, so the conversion is
the projection onto those channels. -/
def convertRGB (img : PImg) : PImg :=
  ⟨PMode.RGB, img.px.map (fun p => (p.1, p.2.1, p.2.2.1, 255))⟩

/-- The compositing step shared by `remove_background_api`,
`process_clothing_complete` and `process_and_add_item` (main.py lines
263–273): RGBA output of rembg is pasted onto a white RGB backdrop using
its alpha channel as mask; anything else is converted directly to RGB. -/
def flattenWhite (img : PImg) : PImg :=
  if img.mode = PMode.RGBA then ⟨PMode.RGB, img.px.map pasteWhite⟩
  else convertRGB img

/-- `remove_background_api` (main.py lines 250–295) up to the external
JPEG/base64 encoding: `rembgResult` is the decoded output of
`Image.open(BytesIO(remove(content)))`, `none` when reading, rembg or the
decode raises — the `except` branch then reports failure. -/
def remove_background_api (rembgResult : Option PImg) : Except String PImg :=
  match rembgResult with
  | none => .error "Background removal failed"
  | some img => .ok (flattenWhite img)

/-- Drop leading whitespace characters. -/
def skipWs : List Char → List Char
  | c :: cs => if c.isWhitespace then skipWs cs else c :: cs
  | [] => []

/-- Python `str.strip()` with no argument: trim whitespace on both ends. -/
def pyStrip (s : String) : String :=
  ⟨((s.data.dropWhile Char.isWhitespace).reverse.dropWhile Char.isWhitespace).reverse⟩

/-- Delete every occurrence of `pat` from the character list, scanning left
to right (Python `str.replace(pat, '')`); `fuel` bounds the recursion and
is instantiated with the list length. -/
def removeAllAux (pat : List Char) : ℕ → List Char → List Char
  | _, [] => []
  | 0, s => s
  | fuel + 1, c :: cs =>
    if pat ≠ [] ∧ pat.isPrefixOf (c :: cs) then
      removeAllAux pat fuel ((c :: cs).drop pat.length)
    else c :: removeAllAux pat fuel cs

/-- Python `s.replace(pat, '')`. -/
def pyReplaceDel (s pat : String) : String :=
  ⟨removeAllAux pat.data s.data.length s.data⟩

/-- The literal replaced by `process_and_add_item`'s parse step:
six consecutive backtick characters. -/
def sixBackticks : String := "``````"

/-- Modelled from the spec: `json.loads` is the Python standard-library
JSON parser, external to the repository.  The classifier prompt demands a
flat JSON object with string fields and the claims exercise only that
shape, so the model parses exactly the flat string-to-string objects
(without escape sequences) and rejects everything else. -/
def parseJStringAux : List Char → List Char → Option (String × List Char)
  | [], _ => none
  | c :: cs, acc =>
    if c = '"' then some (⟨acc.reverse⟩, cs)
    else if c = '\\' then none
    else parseJStringAux cs (c :: acc)

/-- Parse one double-quoted JSON string literal. -/
def parseJString : List Char → Option (String × List Char)
  | '"' :: rest => parseJStringAux rest []
  | _ => none

/-- Parse `"key" : "value"` members up to and including the closing brace. -/
def parseMembers : ℕ → List Char → Option (List (String × String) × List Char)
  | 0, _ => none
  | fuel + 1, s =>
    match parseJString (skipWs s) with
    | none => none
    | some (k, rest) =>
      match skipWs rest with
      | ':' :: rest2 =>
        match parseJString (skipWs rest2) with
        | none => none
        | some (v, rest3) =>
          match skipWs rest3 with
          | ',' :: rest4 =>
            match parseMembers fuel rest4 with
            | some (tl, rest5) => some ((k, v) :: tl, rest5)
            | none => none
          | '\x7d' :: rest4 => some ([(k, v)], rest4)
          | _ => none
      | _ => none

/-- `json.loads` on the modelled fragment: a flat object of string keys and
string values, with surrounding whitespace; `none` is a parse failure
(Python: `json.JSONDecodeError`). -/
def jsonLoads (s : String) : Option (List (String × String)) :=
  match skipWs s.data with
  | '\x7b' :: rest =>
    match skipWs rest with
    | '\x7d' :: rest2 => if skipWs rest2 = [] then some [] else none
    | _ =>
      match parseMembers rest.length rest with
      | some (ps, rest2) => if skipWs rest2 = [] then some ps else none
      | none => none
  | _ => none

/-- Python `dict.get(k)`: `none` when the key is absent. -/
def pyGet (d : List (String × String)) (k : String) : Option String :=
  (d.find? (fun p => p.1 == k)).map (fun p => p.2)

/-- The AI-response parse step of `process_and_add_item` (main.py lines
464–468): `json.loads(response.text.strip().replace('``````', ''))`,
with the bare `except` turning any parse failure into the empty dict. -/
def classifyParse (responseText : String) : List (String × String) :=
  match jsonLoads (pyReplaceDel (pyStrip responseText) sixBackticks) with
  | some obj => obj
  | none => []

/-- The persisted wardrobe record (main.py lines 35–47). -/
structure WardrobeItem where
  name : String
  category : Option String
  subcategory : Option String
  color : Option String
  material : Option String
  seasonality : Option String
  formality : Option String
  image_uri : Option String
  in_laundry : Bool
deriving DecidableEq

/-- The durable state touched by ingestion: stored upload files and
persisted wardrobe records. -/
structure Store where
  files : List String
  items : List WardrobeItem
deriving DecidableEq

/-- The external-call results consumed by one `process_and_add_item`
request.  `rawDecoded` is the decode of the raw upload bytes (kept to
state that the endpoint never consults it); `rembgDecode` is
`Image.open(BytesIO(remove(content)))`, `none` when rembg or the decode
raises; `jpegRoundtrip` is the decode-after-JPEG-encode capability whose
output feeds the colour detector; `aiResponse` is the Gemini response
text, `none` on transport failure; `newFilename` is the
`uuid4`-generated file name. -/
structure IngestEnv where
  rawDecoded : Option (List RGBt)
  rembgDecode : Option PImg
  jpegRoundtrip : PImg → List RGBt
  aiResponse : Option String
  newFilename : String

/-- The palette computed in step 3 of `process_and_add_item` (main.py
lines 443–447): `detect_colors_kmeans` on the JPEG re-encoding of the
flattened, white-composited image, with `num_colors=5`. -/
def ingestPalette (env : IngestEnv) (img : PImg) : List ColorSample :=
  detect_colors_kmeans (some (env.jpegRoundtrip (flattenWhite img))) 5

/-- The canonical colour of line 448:
`colors[0]['hex'] if colors else "#FFFFFF"`. -/
def ingestDominant (env : IngestEnv) (img : PImg) : String :=
  match ingestPalette env img with
  | [] => "#FFFFFF"
  | c :: _ => c.hex

/-- The success payload of `process_and_add_item` (main.py lines 487–492). -/
structure IngestResponse where
  item : WardrobeItem
  analysis : List (String × String)
  detected_color : String
  image_url : String
deriving DecidableEq

/-- `process_and_add_item` (main.py lines 411–495), with HTTP failures as
`.error (status, detail)` and the store threaded explicitly.  A decode or
segmentation failure aborts before anything is written; an AI transport
failure aborts after the file write (the orphan the spec flags in §9);
otherwise the parsed attributes, canonical colour and file path are
assembled into a new `WardrobeItem` and appended to the store. -/
def process_and_add_item (env : IngestEnv) (name : String) (st : Store) :
    Except (ℕ × String) IngestResponse × Store :=
  match env.rembgDecode with
  | none => (.error (500, "Processing failed"), st)
  | some img =>
    let st1 : Store := ⟨st.files ++ [env.newFilename], st.items⟩
    let image_uri := "uploads/" ++ env.newFilename
    let dominant := ingestDominant env img
    match env.aiResponse with
    | none => (.error (500, "Processing failed"), st1)
    | some text =>
      let ai := classifyParse text
      let item : WardrobeItem :=
        ⟨name, pyGet ai "category", pyGet ai "subcategory", some dominant,
         pyGet ai "material", pyGet ai "seasonality", pyGet ai "formality",
         some image_uri, false⟩
      let st2 : Store := ⟨st1.files, st1.items ++ [item]⟩
      (.ok ⟨item, ai, dominant, "/uploads/" ++ env.newFilename⟩, st2)

/-! ### Structural lemmas about the k-means model -/

lemma nearestIdxAux_lt (p : RGBt) :
    ∀ (cs : List RGBt) (i bi : ℕ) (bd : ℤ), bi < i →
      nearestIdxAux p cs i bi bd < i + cs.length := by
  intro cs
  induction cs with
  | nil => intro i bi bd h; simpa [nearestIdxAux] using h.trans_le (Nat.le_refl i)
  | cons c rest ih =>
    intro i bi bd h
    simp only [nearestIdxAux, List.length_cons]
    split
    · have := ih (i + 1) i (dist2 p c) (Nat.lt_succ_self i)
      omega
    · have := ih (i + 1) bi bd (h.trans (Nat.lt_succ_self i))
      omega

lemma nearestIdx_lt (p : RGBt) (cs : List RGBt) (h : cs ≠ []) :
    nearestIdx p cs < cs.length := by
  match cs with
  | [] => exact absurd rfl h
  | c :: rest =>
    have := nearestIdxAux_lt p rest 1 0 (dist2 p c) Nat.one_pos
    simp only [nearestIdx, List.length_cons]
    omega

lemma length_lloydStep (ps cs : List RGBt) :
    (lloydStep ps cs).length = cs.length := by
  simp [lloydStep]

lemma length_lloyd (fuel : ℕ) (ps cs : List RGBt) :
    (lloyd fuel ps cs).length = cs.length := by
  induction fuel generalizing cs with
  | zero => rfl
  | succ n ih =>
    simp only [lloyd]
    split
    · rfl
    · rw [ih, length_lloydStep]

lemma kmeansRun_fst_length (seed : ℕ) (px : List RGBt) (nc : ℕ)
    (h : nc ≤ px.length) : (kmeansRun seed px nc).1.length = nc := by
  simp [kmeansRun, length_lloyd, List.length_take, List.length_rotate,
    Nat.min_eq_left h]

lemma kmeansRun_snd (seed : ℕ) (px : List RGBt) (nc : ℕ) :
    (kmeansRun seed px nc).2 = px.map (fun p => nearestIdx p (kmeansRun seed px nc).1) :=
  rfl

lemma kmeansRun_snd_length (seed : ℕ) (px : List RGBt) (nc : ℕ) :
    (kmeansRun seed px nc).2.length = px.length := by
  rw [kmeansRun_snd, List.length_map]

lemma kmeansRun_labels_lt (seed : ℕ) (px : List RGBt) (nc : ℕ)
    (h1 : 1 ≤ nc) (h2 : nc ≤ px.length) :
    ∀ x ∈ (kmeansRun seed px nc).2, x < nc := by
  intro x hx
  rw [kmeansRun_snd] at hx
  rcases List.mem_map.mp hx with ⟨p, _, rfl⟩
  have hlen : (kmeansRun seed px nc).1.length = nc := kmeansRun_fst_length seed px nc h2
  have hne : (kmeansRun seed px nc).1 ≠ [] := by
    intro hnil
    rw [hnil] at hlen
    simp at hlen
    omega
  have := nearestIdx_lt p (kmeansRun seed px nc).1 hne
  omega

lemma clusterInput_eq (px : List RGBt) :
    clusterInput px = if (List.filter keepPixel px).isEmpty = true then px
      else List.filter keepPixel px := rfl

lemma clusterInput_ne_nil (px : List RGBt) (h : px ≠ []) :
    clusterInput px ≠ [] := by
  rw [clusterInput_eq]
  split
  · exact h
  · next hne => simpa [List.isEmpty_iff] using hne

/-! ### Counting and rounding lemmas -/

lemma list_range_map_sum {M : Type} [AddCommMonoid M] (f : ℕ → M) (n : ℕ) :
    ((List.range n).map f).sum = ∑ i in Finset.range n, f i := by
  induction n with
  | zero => simp
  | succ n ih => rw [List.range_succ, Finset.sum_range_succ]; simp [ih]

lemma sum_count_range (l : List ℕ) (n : ℕ) (h : ∀ x ∈ l, x < n) :
    ((List.range n).map (fun i => l.count i)).sum = l.length := by
  rw [list_range_map_sum]
  have hsub : l.toFinset ⊆ Finset.range n := by
    intro x hx
    exact Finset.mem_range.mpr (h x (List.mem_toFinset.mp hx))
  rw [← Finset.sum_subset hsub]
  · simp [Multiset.toFinset_sum_count_eq (l : Multiset ℕ)]
  · intro x _ hx
    exact List.count_eq_zero.mpr (fun hmem => hx (List.mem_toFinset.mpr hmem))

lemma sum_map_div (l : List ℚ) (c : ℚ) :
    (l.map (fun x => x / c)).sum = l.sum / c := by
  induction l with
  | nil => simp
  | cons a l ih => simp [ih, add_div]

lemma pyRound_abs (q : ℚ) : |((pyRound q : ℤ) : ℚ) - q| ≤ 1 / 2 := by
  have hfl : (⌊q⌋ : ℚ) ≤ q := Int.floor_le q
  have hfu : q < (⌊q⌋ : ℚ) + 1 := Int.lt_floor_add_one q
  have hdef : pyRound q =
      if q - (⌊q⌋ : ℚ) < 1 / 2 then ⌊q⌋
      else if 1 / 2 < q - (⌊q⌋ : ℚ) then ⌊q⌋ + 1
      else if ⌊q⌋ % 2 = 0 then ⌊q⌋ else ⌊q⌋ + 1 := rfl
  rw [hdef]
  split
  · next h => rw [abs_le]; constructor <;> linarith
  · split
    · next h => rw [abs_le]; constructor <;> push_cast <;> linarith
    · next h1 h2 =>
      have hr : q - (⌊q⌋ : ℚ) = 1 / 2 := le_antisymm (not_lt.mp h2) (not_lt.mp h1)
      split <;> (rw [abs_le]; constructor <;> push_cast <;> linarith)

lemma round3_abs (q : ℚ) : |round3 q - q| ≤ 1 / 2000 := by
  have h := pyRound_abs (q * 1000)
  have hq : round3 q - q = (((pyRound (q * 1000) : ℤ) : ℚ) - q * 1000) / 1000 := by
    unfold round3; ring
  rw [hq, abs_div]
  rw [show |(1000 : ℚ)| = 1000 by norm_num]
  linarith

lemma sum_round3_bound (l : List ℚ) :
    |(l.map round3).sum - l.sum| ≤ (l.length : ℚ) / 2000 := by
  induction l with
  | nil => simp
  | cons a l ih =>
    have ha := round3_abs a
    have htri : |(round3 a - a) + ((l.map round3).sum - l.sum)|
        ≤ |round3 a - a| + |(l.map round3).sum - l.sum| := abs_add _ _
    have heq : (((a :: l).map round3).sum - (a :: l).sum)
        = (round3 a - a) + ((l.map round3).sum - l.sum) := by
      simp [List.sum_cons]; ring
    rw [heq]
    have hlen : ((a :: l).length : ℚ) / 2000 = (l.length : ℚ) / 2000 + 1 / 2000 := by
      push_cast [List.length_cons]; ring
    rw [hlen]
    linarith

/-! ### Channel-range propagation: pixels with channels ≤ 255 give
cluster centres with channels ≤ 255 -/

/-- All channel values of every pixel are at most 255. -/
def ValidPx (l : List RGBt) : Prop :=
  ∀ p ∈ l, p.1 ≤ 255 ∧ p.2.1 ≤ 255 ∧ p.2.2 ≤ 255

instance (l : List RGBt) : Decidable (ValidPx l) :=
  inferInstanceAs (Decidable (∀ p ∈ l, p.1 ≤ 255 ∧ p.2.1 ≤ 255 ∧ p.2.2 ≤ 255))

lemma list_sum_le_mul (l : List ℕ) (n : ℕ) (h : ∀ x ∈ l, x ≤ n) :
    l.sum ≤ n * l.length := by
  induction l with
  | nil => simp
  | cons a l ih =>
    have ha := h a (List.mem_cons_self a l)
    have hl := ih (fun x hx => h x (List.mem_cons_of_mem a hx))
    simp only [List.sum_cons, List.length_cons]
    calc a + l.sum ≤ n + n * l.length := Nat.add_le_add ha hl
    _ = n * (l.length + 1) := by ring

lemma meanRGB_valid (l : List RGBt) (old : RGBt)
    (hl : ValidPx l) (ho : old.1 ≤ 255 ∧ old.2.1 ≤ 255 ∧ old.2.2 ≤ 255) :
    (meanRGB l old).1 ≤ 255 ∧ (meanRGB l old).2.1 ≤ 255 ∧ (meanRGB l old).2.2 ≤ 255 := by
  unfold meanRGB
  by_cases hn : l.isEmpty
  · simpa [hn] using ho
  · have hlen : 0 < l.length := by
      cases l with
      | nil => simp at hn
      | cons a l => simp
    have hdiv : ∀ f : RGBt → ℕ, (∀ p ∈ l, f p ≤ 255) → (l.map f).sum / l.length ≤ 255 := by
      intro f hf
      have hsum : (l.map f).sum ≤ 255 * l.length := by
        have := list_sum_le_mul (l.map f) 255
          (by intro x hx; rcases List.mem_map.mp hx with ⟨p, hp, rfl⟩; exact hf p hp)
        simpa [List.length_map] using this
      have := Nat.div_le_div_right (c := l.length) hsum
      rwa [Nat.mul_div_cancel _ hlen] at this
    refine ⟨?_, ?_, ?_⟩ <;> simp only [hn, if_false, Bool.false_eq_true] <;>
      first
        | exact hdiv (fun p => p.1) (fun p hp => (hl p hp).1)
        | exact hdiv (fun p => p.2.1) (fun p hp => (hl p hp).2.1)
        | exact hdiv (fun p => p.2.2) (fun p hp => (hl p hp).2.2)

lemma getD_valid (cs : List RGBt) (i : ℕ) (h : ValidPx cs) :
    (cs.getD i (0, 0, 0)).1 ≤ 255 ∧ (cs.getD i (0, 0, 0)).2.1 ≤ 255 ∧
      (cs.getD i (0, 0, 0)).2.2 ≤ 255 := by
  by_cases hi : i < cs.length
  · rw [List.getD_eq_getElem cs (0, 0, 0) hi]
    exact h _ (List.getElem_mem hi)
  · rw [List.getD_eq_default cs (0, 0, 0) (Nat.le_of_not_lt hi)]
    exact ⟨Nat.zero_le _, Nat.zero_le _, Nat.zero_le _⟩

lemma lloydStep_valid (ps cs : List RGBt) (hps : ValidPx ps) (hcs : ValidPx cs) :
    ValidPx (lloydStep ps cs) := by
  intro p hp
  rcases List.mem_map.mp hp with ⟨i, _, rfl⟩
  refine meanRGB_valid _ _ ?_ (getD_valid cs i hcs)
  intro q hq
  exact hps q (List.mem_of_mem_filter hq)

lemma lloyd_valid (fuel : ℕ) (ps cs : List RGBt)
    (hps : ValidPx ps) (hcs : ValidPx cs) : ValidPx (lloyd fuel ps cs) := by
  induction fuel generalizing cs with
  | zero => exact hcs
  | succ n ih =>
    simp only [lloyd]
    split
    · exact hcs
    · exact ih _ (lloydStep_valid ps cs hps hcs)

lemma kmeansRun_fst_valid (seed : ℕ) (px : List RGBt) (nc : ℕ)
    (h : ValidPx px) : ValidPx (kmeansRun seed px nc).1 := by
  refine lloyd_valid 300 px _ h ?_
  intro p hp
  exact h p ((List.mem_rotate).mp (List.mem_of_mem_take hp))

lemma clusterInput_valid (px : List RGBt) (h : ValidPx px) :
    ValidPx (clusterInput px) := by
  rw [clusterInput_eq]
  split
  · exact h
  · exact fun p hp => h p (List.mem_of_mem_filter hp)

/-! ### Palette construction lemmas -/

lemma buildPalette_perm (c : List RGBt) (l : List ℕ) :
    List.Perm (buildPalette c l) ((List.range c.length).map (fun i =>
      (⟨c.getD i (0, 0, 0), rgb_to_hex (c.getD i (0, 0, 0)),
        round3 ((l.count i : ℚ) / (l.length : ℚ))⟩ : ColorSample))) := by
  unfold buildPalette sortByFreqDesc
  exact List.perm_insertionSort freqGE _

lemma buildPalette_length (c : List RGBt) (l : List ℕ) :
    (buildPalette c l).length = c.length := by
  rw [(buildPalette_perm c l).length_eq, List.length_map, List.length_range]

lemma buildPalette_sorted (c : List RGBt) (l : List ℕ) :
    List.Sorted freqGE (buildPalette c l) :=
  List.sorted_insertionSort freqGE _

lemma buildPalette_mem (c : List RGBt) (l : List ℕ) (e : ColorSample)
    (he : e ∈ buildPalette c l) :
    ∃ i < c.length, e = ⟨c.getD i (0, 0, 0), rgb_to_hex (c.getD i (0, 0, 0)),
      round3 ((l.count i : ℚ) / (l.length : ℚ))⟩ := by
  have := (buildPalette_perm c l).mem_iff.mp he
  rcases List.mem_map.mp this with ⟨i, hi, rfl⟩
  exact ⟨i, List.mem_range.mp hi, rfl⟩

lemma buildPalette_freq_sum (c : List RGBt) (l : List ℕ)
    (hlt : ∀ x ∈ l, x < c.length) (hne : l ≠ []) :
    |((buildPalette c l).map (fun e => e.frequency)).sum - 1|
      ≤ ((buildPalette c l).length : ℚ) / 2000 := by
  have hperm := (buildPalette_perm c l).map (fun e => e.frequency)
  rw [hperm.sum_eq, buildPalette_length, List.map_map]
  have hcomp : ((fun e : ColorSample => e.frequency) ∘ (fun i =>
      (⟨c.getD i (0, 0, 0), rgb_to_hex (c.getD i (0, 0, 0)),
        round3 ((l.count i : ℚ) / (l.length : ℚ))⟩ : ColorSample)))
      = fun i => round3 ((l.count i : ℚ) / (l.length : ℚ)) := rfl
  rw [hcomp]
  have hmm : (List.range c.length).map (fun i => round3 ((l.count i : ℚ) / (l.length : ℚ)))
      = ((List.range c.length).map (fun i => (l.count i : ℚ) / (l.length : ℚ))).map round3 := by
    rw [List.map_map]; rfl
  have hT : (l.length : ℚ) ≠ 0 := by
    have : l.length ≠ 0 := by
      cases l with
      | nil => exact absurd rfl hne
      | cons a t => simp
    exact_mod_cast this
  have htrue : ((List.range c.length).map (fun i => (l.count i : ℚ) / (l.length : ℚ))).sum = 1 := by
    have hdiv : ((List.range c.length).map (fun i => (l.count i : ℚ) / (l.length : ℚ)))
        = ((List.range c.length).map (fun i => (l.count i : ℚ))).map (fun x => x / (l.length : ℚ)) := by
      rw [List.map_map]; rfl
    rw [hdiv, sum_map_div]
    have hcast : ((List.range c.length).map (fun i => (l.count i : ℚ))).sum
        = (((List.range c.length).map (fun i => l.count i)).sum : ℚ) := by
      rw [Nat.cast_list_sum, List.map_map]; rfl
    rw [hcast, sum_count_range l c.length hlt, div_self hT]
  have hbound := sum_round3_bound ((List.range c.length).map (fun i => (l.count i : ℚ) / (l.length : ℚ)))
  rw [htrue] at hbound
  rw [hmm]
  simpa [List.length_map, List.length_range] using hbound

/-- The non-fallback branch of `detectCoreR`, in closed form. -/
lemma detectCoreR_eq (rs : Option ℕ) (amb : ℕ) (px : List RGBt) (k : ℕ)
    (h : min k (clusterInput px).length ≠ 0) :
    detectCoreR rs amb px k =
      buildPalette (kmeansRun (rs.getD amb) (clusterInput px) (min k (clusterInput px).length)).1
        (kmeansRun (rs.getD amb) (clusterInput px) (min k (clusterInput px).length)).2 := by
  have hdef : detectCoreR rs amb px k =
      if min k (clusterInput px).length = 0 then whiteFallback
      else buildPalette
        (kmeansRun (rs.getD amb) (clusterInput px) (min k (clusterInput px).length)).1
        (kmeansRun (rs.getD amb) (clusterInput px) (min k (clusterInput px).length)).2 := rfl
  rw [hdef, if_neg h]

/-! ### Hex formatting lemmas -/

/-- A hex string is "lowercase" when it contains no uppercase letter. -/
def hexIsLower (s : String) : Bool :=
  s.data.all (fun c => !c.isUpper)

lemma hexDigit_not_upper (k : ℕ) (h : k < 16) : (hexDigit k).isUpper = false := by
  interval_cases k <;> decide

lemma natToHexAux_not_upper (fuel n : ℕ) :
    ∀ c ∈ natToHexAux fuel n, c.isUpper = false := by
  induction fuel generalizing n with
  | zero => intro c hc; simp [natToHexAux] at hc
  | succ f ih =>
    intro c hc
    match n with
    | 0 => simp [natToHexAux] at hc
    | m + 1 =>
      simp only [natToHexAux, List.mem_append, List.mem_singleton] at hc
      rcases hc with hc | rfl
      · exact ih _ c hc
      · exact hexDigit_not_upper _ (Nat.mod_lt _ (by norm_num))

lemma pad2_chars (ds : List Char) : ∀ c ∈ pad2 ds, c = '0' ∨ c ∈ ds := by
  intro c hc
  unfold pad2 nonEmptyDigits at hc
  by_cases h1 : ds = []
  · subst h1
    rw [if_pos rfl] at hc
    norm_num at hc
    exact Or.inl hc
  · rw [if_neg h1] at hc
    by_cases h2 : ds.length < 2
    · rw [if_pos h2] at hc
      rcases List.mem_cons.mp hc with rfl | hc
      · exact Or.inl rfl
      · exact Or.inr hc
    · rw [if_neg h2] at hc
      exact Or.inr hc

lemma format02x_not_upper (n : ℕ) :
    ∀ c ∈ (format02x n).data, c.isUpper = false := by
  intro c hc
  rcases pad2_chars (natToHexAux n n) c hc with rfl | hc
  · decide
  · exact natToHexAux_not_upper n n c hc

lemma rgb_to_hex_lower (c : RGBt) : hexIsLower (rgb_to_hex c) = true := by
  unfold hexIsLower rgb_to_hex
  rw [List.all_eq_true]
  intro ch hch
  simp only [String.data_append] at hch
  rcases List.mem_append.mp hch with hch | hch
  · rcases List.mem_append.mp hch with hch | hch
    · rcases List.mem_append.mp hch with hch | hch
      · simp only [show ("#" : String).data = ['#'] from rfl, List.mem_singleton] at hch
        subst hch; decide
      · simp [format02x_not_upper _ ch hch]
    · simp [format02x_not_upper _ ch hch]
  · simp [format02x_not_upper _ ch hch]

set_option maxRecDepth 4000 in
lemma format02x_length (n : ℕ) (h : n < 256) : (format02x n).length = 2 := by
  revert n
  decide

lemma rgb_to_hex_length (c : RGBt)
    (h : c.1 ≤ 255 ∧ c.2.1 ≤ 255 ∧ c.2.2 ≤ 255) :
    (rgb_to_hex c).length = 7 := by
  unfold rgb_to_hex
  simp only [String.length_append]
  rw [format02x_length _ (Nat.lt_succ_of_le h.1),
    format02x_length _ (Nat.lt_succ_of_le h.2.1),
    format02x_length _ (Nat.lt_succ_of_le h.2.2)]
  rfl

/-! ### Blend arithmetic lemmas -/

set_option maxRecDepth 4000 in
lemma muldiv255_self (v : ℕ) (h : v ≤ 255) : muldiv255 v 255 = v := by
  revert v
  decide

lemma muldiv255_zero (v : ℕ) : muldiv255 v 0 = 0 := by
  simp [muldiv255]

lemma blendChan_opaque (v : ℕ) (h : v ≤ 255) : blendChan 255 v 255 = v := by
  unfold blendChan
  rw [Nat.sub_self, muldiv255_zero, muldiv255_self v h]
  omega

lemma blendChan_transparent (v : ℕ) : blendChan 255 v 0 = 255 := by
  unfold blendChan
  rw [Nat.sub_zero, muldiv255_self 255 (by norm_num), muldiv255_zero]

/-! ### Helper lemmas shared by the claim theorems -/

lemma detectCoreR_fallback (rs : Option ℕ) (amb : ℕ) (px : List RGBt) (k : ℕ)
    (h : min k (clusterInput px).length = 0) :
    detectCoreR rs amb px k = whiteFallback := by
  have hdef : detectCoreR rs amb px k =
      if min k (clusterInput px).length = 0 then whiteFallback
      else buildPalette
        (kmeansRun (rs.getD amb) (clusterInput px) (min k (clusterInput px).length)).1
        (kmeansRun (rs.getD amb) (clusterInput px) (min k (clusterInput px).length)).2 := rfl
  rw [hdef, if_pos h]

lemma min_clusterInput_ne_zero (px : List RGBt) (k : ℕ)
    (hpx : px ≠ []) (hk : 1 ≤ k) : min k (clusterInput px).length ≠ 0 := by
  have h1 : 0 < (clusterInput px).length :=
    List.length_pos.mpr (clusterInput_ne_nil px hpx)
  omega

lemma detect_colors_kmeans_ne_nil (d : Option (List RGBt)) (k : ℕ) :
    detect_colors_kmeans d k ≠ [] := by
  match d with
  | none => simp [detect_colors_kmeans, whiteFallback]
  | some px =>
    show detectCoreR (some 42) 0 px k ≠ []
    by_cases h : min k (clusterInput px).length = 0
    · rw [detectCoreR_fallback _ _ _ _ h]
      simp [whiteFallback]
    · rw [detectCoreR_eq _ _ _ _ h]
      intro hnil
      have hlen : (buildPalette
          (kmeansRun ((some 42 : Option ℕ).getD 0) (clusterInput px) (min k (clusterInput px).length)).1
          (kmeansRun ((some 42 : Option ℕ).getD 0) (clusterInput px) (min k (clusterInput px).length)).2).length
          = min k (clusterInput px).length := by
        rw [buildPalette_length, kmeansRun_fst_length _ _ _ (Nat.min_le_right _ _)]
      rw [hnil] at hlen
      simp at hlen
      exact h hlen.symm

lemma detect_entry_hex (px : List RGBt) (k : ℕ) (hv : ValidPx px)
    (h : min k (clusterInput px).length ≠ 0) :
    ∀ e ∈ detect_colors_kmeans (some px) k,
      e.hex = rgb_to_hex e.rgb ∧ hexIsLower e.hex = true ∧ e.hex.length = 7 := by
  intro e he
  have hd : detect_colors_kmeans (some px) k = detectCoreR (some 42) 0 px k := rfl
  rw [hd, detectCoreR_eq _ _ _ _ h] at he
  rcases buildPalette_mem _ _ e he with ⟨i, hi, rfl⟩
  have hcv : ValidPx (kmeansRun ((some 42 : Option ℕ).getD 0) (clusterInput px)
      (min k (clusterInput px).length)).1 :=
    kmeansRun_fst_valid _ _ _ (clusterInput_valid px hv)
  have hgd := getD_valid _ i hcv
  exact ⟨rfl, rgb_to_hex_lower _, rgb_to_hex_length _ hgd⟩

/-! ### Claim theorems -/

lemma detect_colors_kmeans_nil_px (k : ℕ) :
    detect_colors_kmeans (some []) k = whiteFallback := by
  show detectCoreR (some 42) 0 [] k = whiteFallback
  apply detectCoreR_fallback
  simp [clusterInput]

/-- C5: if clustering cannot run at all — the image bytes do not decode
(`decoded = none`), or there are no pixels at all — `detect_colors_kmeans`
returns the single-entry plain-white palette at frequency 1.0 instead of
propagating the failure. -/
theorem c5_white_fallback_on_failure (k : ℕ) :
    detect_colors_kmeans none k = whiteFallback ∧
    detect_colors_kmeans (some []) k = whiteFallback ∧
    whiteFallback = [⟨(255, 255, 255), "#FFFFFF", 1⟩] :=
  ⟨rfl, detect_colors_kmeans_nil_px k, rfl⟩

/-- C6: the colour extractor is deterministic — the code fixes
`random_state=42`, so its output does not depend on the ambient RNG state,
and two runs on the same decoded image and the same `k` agree exactly. -/
theorem c6_deterministic_seed (px : List RGBt) (k a1 a2 : ℕ) :
    detectCoreR (some 42) a1 px k = detectCoreR (some 42) a2 px k ∧
    detect_colors_kmeans (some px) k = detectCoreR (some 42) a1 px k :=
  ⟨rfl, rfl⟩

/-- C1: for every decodable image (a non-empty decoded pixel list) and
every requested `k ≥ 1`, `detect_colors_kmeans` returns a non-empty
palette of at most `k` entries whose number of clusters is
`min(k, pixel count)` (pixel count of the filtered-or-fallback cluster
input), whose frequencies sum to 1.0 up to the 3-decimal rounding
(at most `n/2000` away), sorted non-increasing by frequency. -/
theorem c1_extract_palette_contract (px : List RGBt) (k : ℕ)
    (hpx : px ≠ []) (hk : 1 ≤ k) :
    detect_colors_kmeans (some px) k ≠ [] ∧
    (detect_colors_kmeans (some px) k).length ≤ k ∧
    (detect_colors_kmeans (some px) k).length = min k (clusterInput px).length ∧
    |((detect_colors_kmeans (some px) k).map (fun e => e.frequency)).sum - 1|
      ≤ ((detect_colors_kmeans (some px) k).length : ℚ) / 2000 ∧
    List.Sorted freqGE (detect_colors_kmeans (some px) k) := by
  have hmin := min_clusterInput_ne_zero px k hpx hk
  have hd : detect_colors_kmeans (some px) k = detectCoreR (some 42) 0 px k := rfl
  have heq := detectCoreR_eq (some 42) 0 px k hmin
  have hncle : min k (clusterInput px).length ≤ (clusterInput px).length :=
    Nat.min_le_right _ _
  have hclen : (kmeansRun ((some 42 : Option ℕ).getD 0) (clusterInput px)
      (min k (clusterInput px).length)).1.length = min k (clusterInput px).length :=
    kmeansRun_fst_length _ _ _ hncle
  have hlen : (detect_colors_kmeans (some px) k).length = min k (clusterInput px).length := by
    rw [hd, heq, buildPalette_length, hclen]
  refine ⟨?_, ?_, hlen, ?_, ?_⟩
  · intro hnil
    rw [hnil] at hlen
    exact hmin hlen.symm
  · rw [hlen]; exact Nat.min_le_left _ _
  · have hlab : ∀ x ∈ (kmeansRun ((some 42 : Option ℕ).getD 0) (clusterInput px)
        (min k (clusterInput px).length)).2,
        x < (kmeansRun ((some 42 : Option ℕ).getD 0) (clusterInput px)
          (min k (clusterInput px).length)).1.length := by
      rw [hclen]
      exact kmeansRun_labels_lt _ _ _ (Nat.one_le_iff_ne_zero.mpr hmin) hncle
    have hlabne : (kmeansRun ((some 42 : Option ℕ).getD 0) (clusterInput px)
        (min k (clusterInput px).length)).2 ≠ [] := by
      intro hnil
      have := kmeansRun_snd_length ((some 42 : Option ℕ).getD 0) (clusterInput px)
        (min k (clusterInput px).length)
      rw [hnil] at this
      have hpos : 0 < (clusterInput px).length :=
        List.length_pos.mpr (clusterInput_ne_nil px hpx)
      simp at this
      omega
    have := buildPalette_freq_sum _ _ hlab hlabne
    rw [hd, heq]
    exact this
  · rw [hd, heq]
    exact buildPalette_sorted _ _

/-- C1 witness: a concrete three-pixel image with `k = 2`. -/
theorem c1_extract_palette_contract_witness :
    ([((10 : ℕ), (20 : ℕ), (30 : ℕ)), (10, 20, 30), (200, 100, 50)] : List RGBt) ≠ [] ∧
    1 ≤ 2 ∧
    (detect_colors_kmeans (some [(10, 20, 30), (10, 20, 30), (200, 100, 50)]) 2 ≠ [] ∧
      (detect_colors_kmeans (some [(10, 20, 30), (10, 20, 30), (200, 100, 50)]) 2).length ≤ 2 ∧
      (detect_colors_kmeans (some [(10, 20, 30), (10, 20, 30), (200, 100, 50)]) 2).length
        = min 2 (clusterInput [(10, 20, 30), (10, 20, 30), (200, 100, 50)]).length ∧
      |((detect_colors_kmeans (some [(10, 20, 30), (10, 20, 30), (200, 100, 50)]) 2).map
          (fun e => e.frequency)).sum - 1|
        ≤ ((detect_colors_kmeans (some [(10, 20, 30), (10, 20, 30), (200, 100, 50)]) 2).length : ℚ) / 2000 ∧
      List.Sorted freqGE (detect_colors_kmeans (some [(10, 20, 30), (10, 20, 30), (200, 100, 50)]) 2)) :=
  ⟨by decide, by decide,
    c1_extract_palette_contract [(10, 20, 30), (10, 20, 30), (200, 100, 50)] 2 (by decide) (by decide)⟩

/-- C4: pixels exactly matching pure white and pure black are excluded
from the clustering input, but when the filter would remove every pixel
the extractor falls back to the unfiltered pixel set — the clustered set
is never empty and the palette returned is non-empty. -/
theorem c4_background_filter_fallback (px : List RGBt) (k : ℕ) (hpx : px ≠ []) :
    clusterInput px ≠ [] ∧
    (px.filter keepPixel = [] → clusterInput px = px) ∧
    (px.filter keepPixel ≠ [] →
      clusterInput px = px.filter keepPixel ∧
      ∀ p ∈ clusterInput px, p ≠ (255, 255, 255) ∧ p ≠ (0, 0, 0)) ∧
    detect_colors_kmeans (some px) k ≠ [] := by
  refine ⟨clusterInput_ne_nil px hpx, ?_, ?_, detect_colors_kmeans_ne_nil _ _⟩
  · intro hf
    rw [clusterInput_eq, if_pos (by simp [hf])]
  · intro hf
    have hcl : clusterInput px = px.filter keepPixel := by
      rw [clusterInput_eq, if_neg (by simpa [List.isEmpty_iff] using hf)]
    refine ⟨hcl, ?_⟩
    intro p hp
    rw [hcl] at hp
    have := List.of_mem_filter hp
    simpa [keepPixel] using this

/-- C4 witness: a two-pixel all-white image, `k = 3`. -/
theorem c4_background_filter_fallback_witness :
    ([((255 : ℕ), (255 : ℕ), (255 : ℕ)), (255, 255, 255)] : List RGBt) ≠ [] ∧
    (clusterInput [(255, 255, 255), (255, 255, 255)] ≠ [] ∧
      (([((255 : ℕ), (255 : ℕ), (255 : ℕ)), (255, 255, 255)] : List RGBt).filter keepPixel = [] →
        clusterInput [(255, 255, 255), (255, 255, 255)] = [(255, 255, 255), (255, 255, 255)]) ∧
      (([((255 : ℕ), (255 : ℕ), (255 : ℕ)), (255, 255, 255)] : List RGBt).filter keepPixel ≠ [] →
        clusterInput [(255, 255, 255), (255, 255, 255)]
          = ([((255 : ℕ), (255 : ℕ), (255 : ℕ)), (255, 255, 255)] : List RGBt).filter keepPixel ∧
        ∀ p ∈ clusterInput [(255, 255, 255), (255, 255, 255)],
          p ≠ (255, 255, 255) ∧ p ≠ (0, 0, 0)) ∧
      detect_colors_kmeans (some [(255, 255, 255), (255, 255, 255)]) 3 ≠ []) :=
  ⟨by decide, c4_background_filter_fallback [(255, 255, 255), (255, 255, 255)] 3 (by decide)⟩

/-- C9: `detect_colors_kmeans` never returns an empty list (for any decode
result and any requested `k ≥ 1`), so in the ingestion pipeline the
`colors[0]` access always succeeds and the `if colors else "#FFFFFF"`
default branch is unreachable: the canonical colour is always the head
entry's hex. -/
theorem c9_palette_never_empty :
    (∀ (d : Option (List RGBt)) (k : ℕ), 1 ≤ k → detect_colors_kmeans d k ≠ []) ∧
    (∀ (env : IngestEnv) (img : PImg), ∃ c cs,
      ingestPalette env img = c :: cs ∧ ingestDominant env img = c.hex) := by
  constructor
  · intro d k _
    exact detect_colors_kmeans_ne_nil d k
  · intro env img
    cases hpal : ingestPalette env img with
    | nil => exact absurd hpal (detect_colors_kmeans_ne_nil _ 5)
    | cons c cs =>
      refine ⟨c, cs, rfl, ?_⟩
      unfold ingestDominant
      rw [hpal]

/-- C9 witness: a concrete one-pixel decode and a concrete ingestion
environment. -/
theorem c9_palette_never_empty_witness :
    detect_colors_kmeans (some [((1 : ℕ), (2 : ℕ), (3 : ℕ))]) 5 ≠ [] ∧
    (∃ c cs, ingestPalette ⟨none, none, fun _ => [(1, 2, 3)], none, "f.jpg"⟩ ⟨PMode.RGB, []⟩
        = c :: cs ∧
      ingestDominant ⟨none, none, fun _ => [(1, 2, 3)], none, "f.jpg"⟩ ⟨PMode.RGB, []⟩ = c.hex) :=
  ⟨c9_palette_never_empty.1 (some [(1, 2, 3)]) 5 (by decide),
    c9_palette_never_empty.2 ⟨none, none, fun _ => [(1, 2, 3)], none, "f.jpg"⟩ ⟨PMode.RGB, []⟩⟩

/-- C10: palette entries produced by successful clustering carry lowercase
seven-character hex strings that agree with the entry's RGB triple, while
the failure fallback carries the uppercase `"#FFFFFF"`; hence the canonical
colour stored by ingestion is lowercase exactly when extraction ran the
clustering path (non-empty processed pixel input). -/
theorem c10_hex_case_discipline (px : List RGBt) (k : ℕ) (hv : ValidPx px)
    (hpx : px ≠ []) (hk : 1 ≤ k) :
    (∀ e ∈ detect_colors_kmeans (some px) k,
      e.hex = rgb_to_hex e.rgb ∧ hexIsLower e.hex = true ∧ e.hex.length = 7) ∧
    whiteFallback = [⟨(255, 255, 255), "#FFFFFF", 1⟩] ∧
    hexIsLower "#FFFFFF" = false ∧
    (∀ (env : IngestEnv) (img : PImg),
      ValidPx (env.jpegRoundtrip (flattenWhite img)) →
      (hexIsLower (ingestDominant env img) = true ↔
        env.jpegRoundtrip (flattenWhite img) ≠ [])) := by
  refine ⟨detect_entry_hex px k hv (min_clusterInput_ne_zero px k hpx hk), rfl,
    by decide, ?_⟩
  intro env img hvv
  by_cases hI : env.jpegRoundtrip (flattenWhite img) = []
  · have hdom : ingestDominant env img = "#FFFFFF" := by
      unfold ingestDominant
      have hpal : ingestPalette env img = whiteFallback := by
        unfold ingestPalette
        rw [hI, detect_colors_kmeans_nil_px]
      rw [hpal]
      rfl
    constructor
    · intro hlow
      rw [hdom] at hlow
      exact absurd hlow (by decide)
    · intro hne
      exact absurd hI hne
  · constructor
    · intro _
      exact hI
    · intro _
      cases hpal : ingestPalette env img with
      | nil => exact absurd hpal (detect_colors_kmeans_ne_nil _ 5)
      | cons c cs =>
        have hdom : ingestDominant env img = c.hex := by
          unfold ingestDominant
          rw [hpal]
        have hmem : c ∈ detect_colors_kmeans
            (some (env.jpegRoundtrip (flattenWhite img))) 5 := by
          have hrfl : ingestPalette env img
              = detect_colors_kmeans (some (env.jpegRoundtrip (flattenWhite img))) 5 := rfl
          rw [← hrfl, hpal]
          exact List.mem_cons_self c cs
        have hlow := detect_entry_hex _ 5 hvv
          (min_clusterInput_ne_zero _ 5 hI (by norm_num)) c hmem
        rw [hdom]
        exact hlow.2.1

/-- C10 witness: a one-pixel decoded image, `k = 1`, and an ingestion
environment whose JPEG round-trip yields that pixel. -/
theorem c10_hex_case_discipline_witness :
    ValidPx [((1 : ℕ), (2 : ℕ), (3 : ℕ))] ∧
    ([((1 : ℕ), (2 : ℕ), (3 : ℕ))] : List RGBt) ≠ [] ∧
    1 ≤ 1 ∧
    ((∀ e ∈ detect_colors_kmeans (some [(1, 2, 3)]) 1,
      e.hex = rgb_to_hex e.rgb ∧ hexIsLower e.hex = true ∧ e.hex.length = 7) ∧
    whiteFallback = [⟨(255, 255, 255), "#FFFFFF", 1⟩] ∧
    hexIsLower "#FFFFFF" = false ∧
    (∀ (env : IngestEnv) (img : PImg),
      ValidPx (env.jpegRoundtrip (flattenWhite img)) →
      (hexIsLower (ingestDominant env img) = true ↔
        env.jpegRoundtrip (flattenWhite img) ≠ []))) :=
  ⟨by decide, by decide, by decide,
    c10_hex_case_discipline [(1, 2, 3)] 1 (by decide) (by decide) (by decide)⟩

/-- C3: ingesting bytes that are not a decodable image (the segmentation
or decode step raises) fails the whole call with a visible error and
leaves the store untouched: no file is stored and no `WardrobeItem`
record is created. -/
theorem c3_decode_failure_aborts_cleanly (env : IngestEnv) (name : String)
    (st : Store) (h : env.rembgDecode = none) :
    process_and_add_item env name st = (.error (500, "Processing failed"), st) ∧
    (process_and_add_item env name st).2.files = st.files ∧
    (process_and_add_item env name st).2.items = st.items := by
  have heq : process_and_add_item env name st
      = (.error (500, "Processing failed"), st) := by
    unfold process_and_add_item
    rw [h]
  exact ⟨heq, by rw [heq], by rw [heq]⟩

/-- C3 witness: a concrete environment whose decode failed. -/
theorem c3_decode_failure_aborts_cleanly_witness :
    (⟨none, none, fun _ => [], none, "f.jpg"⟩ : IngestEnv).rembgDecode = none ∧
    (process_and_add_item ⟨none, none, fun _ => [], none, "f.jpg"⟩ "shirt" ⟨[], []⟩
        = (.error (500, "Processing failed"), ⟨[], []⟩) ∧
      (process_and_add_item ⟨none, none, fun _ => [], none, "f.jpg"⟩ "shirt" ⟨[], []⟩).2.files
        = (⟨[], []⟩ : Store).files ∧
      (process_and_add_item ⟨none, none, fun _ => [], none, "f.jpg"⟩ "shirt" ⟨[], []⟩).2.items
        = (⟨[], []⟩ : Store).items) :=
  ⟨rfl, c3_decode_failure_aborts_cleanly ⟨none, none, fun _ => [], none, "f.jpg"⟩
    "shirt" ⟨[], []⟩ rfl⟩

/-- C7: `remove_background_api` returns a flattened 3-channel image with
no alpha channel: an RGBA segmentation output is composited over a uniform
white backdrop using its alpha channel as blend mask (a fully opaque pixel
keeps its colour, a fully transparent one becomes white), anything else is
converted directly to RGB. -/
theorem c7_flatten_no_alpha (img res : PImg)
    (h : remove_background_api (some img) = .ok res) :
    res.mode = PMode.RGB ∧
    (∀ p ∈ res.px, p.2.2.2 = 255) ∧
    (img.mode = PMode.RGBA → res.px = img.px.map pasteWhite) ∧
    (img.mode ≠ PMode.RGBA → res = convertRGB img) ∧
    (∀ v, v ≤ 255 → blendChan 255 v 255 = v) ∧
    (∀ v, blendChan 255 v 0 = 255) := by
  have hres : res = flattenWhite img := by
    have : remove_background_api (some img) = .ok (flattenWhite img) := rfl
    rw [this] at h
    exact (Except.ok.inj h).symm
  subst hres
  refine ⟨?_, ?_, ?_, ?_, blendChan_opaque, blendChan_transparent⟩
  · unfold flattenWhite
    split
    · rfl
    · rfl
  · intro p hp
    unfold flattenWhite at hp
    revert hp
    split
    · intro hp
      rcases List.mem_map.mp hp with ⟨q, _, rfl⟩
      rfl
    · intro hp
      unfold convertRGB at hp
      rcases List.mem_map.mp hp with ⟨q, _, rfl⟩
      rfl
  · intro hm
    unfold flattenWhite
    rw [if_pos hm]
  · intro hm
    unfold flattenWhite
    rw [if_neg hm]

/-- C7 witness: a two-pixel RGBA image, one opaque red pixel and one fully
transparent pixel. -/
theorem c7_flatten_no_alpha_witness :
    remove_background_api (some ⟨PMode.RGBA, [(200, 10, 10, 255), (1, 2, 3, 0)]⟩)
      = .ok (flattenWhite ⟨PMode.RGBA, [(200, 10, 10, 255), (1, 2, 3, 0)]⟩) ∧
    ((flattenWhite ⟨PMode.RGBA, [(200, 10, 10, 255), (1, 2, 3, 0)]⟩).mode = PMode.RGB ∧
    (∀ p ∈ (flattenWhite ⟨PMode.RGBA, [(200, 10, 10, 255), (1, 2, 3, 0)]⟩).px,
      p.2.2.2 = 255) ∧
    ((⟨PMode.RGBA, [(200, 10, 10, 255), (1, 2, 3, 0)]⟩ : PImg).mode = PMode.RGBA →
      (flattenWhite ⟨PMode.RGBA, [(200, 10, 10, 255), (1, 2, 3, 0)]⟩).px
        = [((200 : ℕ), (10 : ℕ), (10 : ℕ), (255 : ℕ)), (1, 2, 3, 0)].map pasteWhite) ∧
    ((⟨PMode.RGBA, [(200, 10, 10, 255), (1, 2, 3, 0)]⟩ : PImg).mode ≠ PMode.RGBA →
      flattenWhite ⟨PMode.RGBA, [(200, 10, 10, 255), (1, 2, 3, 0)]⟩
        = convertRGB ⟨PMode.RGBA, [(200, 10, 10, 255), (1, 2, 3, 0)]⟩) ∧
    (∀ v, v ≤ 255 → blendChan 255 v 255 = v) ∧
    (∀ v, blendChan 255 v 0 = 255)) :=
  ⟨rfl, c7_flatten_no_alpha ⟨PMode.RGBA, [(200, 10, 10, 255), (1, 2, 3, 0)]⟩
    (flattenWhite ⟨PMode.RGBA, [(200, 10, 10, 255), (1, 2, 3, 0)]⟩) rfl⟩

/-- C8: in the ingestion pipeline the colour extractor runs on the
processed (background-removed, white-composited, JPEG re-encoded) image —
not on the raw upload, whose decode the endpoint never consults — and the
stored canonical colour is `palette[0].hex`, defaulting to white only if
the palette were empty. -/
theorem c8_color_from_processed_image (env : IngestEnv) (img : PImg)
    (name : String) (st : Store) (r : IngestResponse) (st2 : Store)
    (h : env.rembgDecode = some img)
    (hok : process_and_add_item env name st = (.ok r, st2)) :
    r.detected_color = ingestDominant env img ∧
    ingestPalette env img
      = detect_colors_kmeans (some (env.jpegRoundtrip (flattenWhite img))) 5 ∧
    r.item.color = some (ingestDominant env img) ∧
    (ingestPalette env img = [] → r.detected_color = "#FFFFFF") ∧
    (∀ c cs, ingestPalette env img = c :: cs → r.detected_color = c.hex) ∧
    (∀ raw1 raw2 : Option (List RGBt),
      process_and_add_item ⟨raw1, env.rembgDecode, env.jpegRoundtrip,
        env.aiResponse, env.newFilename⟩ name st
      = process_and_add_item ⟨raw2, env.rembgDecode, env.jpegRoundtrip,
        env.aiResponse, env.newFilename⟩ name st) := by
  unfold process_and_add_item at hok
  rw [h] at hok
  cases hai : env.aiResponse with
  | none =>
    rw [hai] at hok
    exact absurd (congrArg Prod.fst hok) (by simp)
  | some text =>
    rw [hai] at hok
    have hr : r = ⟨⟨name, pyGet (classifyParse text) "category",
        pyGet (classifyParse text) "subcategory", some (ingestDominant env img),
        pyGet (classifyParse text) "material", pyGet (classifyParse text) "seasonality",
        pyGet (classifyParse text) "formality", some ("uploads/" ++ env.newFilename), false⟩,
        classifyParse text, ingestDominant env img, "/uploads/" ++ env.newFilename⟩ := by
      have := congrArg Prod.fst hok
      simp only at this
      exact Except.ok.inj this.symm
    subst hr
    refine ⟨rfl, rfl, rfl, ?_, ?_, fun raw1 raw2 => rfl⟩
    · intro hnil
      exact absurd hnil (detect_colors_kmeans_ne_nil _ 5)
    · intro c cs hpal
      show ingestDominant env img = c.hex
      unfold ingestDominant
      rw [hpal]

/-- C8 witness: a concrete environment with a successful decode, a JPEG
round-trip yielding one pixel, and a well-formed AI response. -/
theorem c8_color_from_processed_image_witness :
    (⟨none, some ⟨PMode.RGB, [(5, 6, 7, 255)]⟩, fun _ => [(5, 6, 7)], some "x", "f.jpg"⟩
        : IngestEnv).rembgDecode = some ⟨PMode.RGB, [(5, 6, 7, 255)]⟩ ∧
    ∃ r st2, process_and_add_item
        ⟨none, some ⟨PMode.RGB, [(5, 6, 7, 255)]⟩, fun _ => [(5, 6, 7)], some "x", "f.jpg"⟩
        "shirt" ⟨[], []⟩ = (.ok r, st2) ∧
      r.detected_color = ingestDominant
        ⟨none, some ⟨PMode.RGB, [(5, 6, 7, 255)]⟩, fun _ => [(5, 6, 7)], some "x", "f.jpg"⟩
        ⟨PMode.RGB, [(5, 6, 7, 255)]⟩ := by
  refine ⟨rfl, ?_⟩
  refine ⟨_, _, rfl, ?_⟩
  exact (c8_color_from_processed_image
    ⟨none, some ⟨PMode.RGB, [(5, 6, 7, 255)]⟩, fun _ => [(5, 6, 7)], some "x", "f.jpg"⟩
    ⟨PMode.RGB, [(5, 6, 7, 255)]⟩ "shirt" ⟨[], []⟩ _ _ rfl rfl).1

/-- C2: the parse step of `process_and_add_item` deletes only runs of six
consecutive backticks (`.replace('``````', '')`), so a response whose
valid JSON is wrapped in the standard triple-backtick code-fence markers
is left unstripped and fails to parse — the attributes come back empty —
even though the JSON between the fences is valid on its own.  The
degradation half of the claim does hold: an unparseable response yields
empty attributes and the ingestion request still succeeds. -/
theorem c2_fence_stripping_bug :
    classifyParse "```json\n\x7b\"category\": \"Tops\"\x7d\n```" = [] ∧
    jsonLoads "\x7b\"category\": \"Tops\"\x7d" = some [("category", "Tops")] ∧
    pyReplaceDel (pyStrip "```json\n\x7b\"category\": \"Tops\"\x7d\n```") sixBackticks
      = "```json\n\x7b\"category\": \"Tops\"\x7d\n```" ∧
    classifyParse "not json at all" = [] ∧
    (∃ r st2, process_and_add_item
        ⟨none, some ⟨PMode.RGB, [(5, 6, 7, 255)]⟩, fun _ => [(5, 6, 7)],
          some "```json\n\x7b\"category\": \"Tops\"\x7d\n```", "f.jpg"⟩
        "shirt" ⟨[], []⟩ = (.ok r, st2) ∧
      r.analysis = [] ∧ r.item.category = none ∧ r.item.material = none) := by
  refine ⟨by decide, by decide, by decide, by decide, ?_⟩
  exact ⟨_, _, rfl, by decide, by decide, by decide⟩

end Almari
